import Mathlib

/-!
Verification of the `visualize.py` dashboard (repository `data_mining`).

The dashboard loads the table `merged_education_data`, lets the user pick an
X-axis indicator, a list of Y-axis indicators, and a country filter,
aggregates by country (arithmetic mean per group), renders a scatter chart
(primary series plus overlay series on a secondary axis), shows the table
formatted to two decimals, and offers a CSV export.

This file shallow-embeds the data model and the render pipeline of
`src/visualize.py`:

* a raw dataframe is a list of rows; a row is a country code (`IDCNTRY`,
  an integer) paired with an association list from column names to exact
  rational values (pandas floats are modelled as `Rat`);
* the country filter, the `groupby("IDCNTRY").agg(...)` call (pandas sorts
  group keys ascending and `reset_index` keeps the country as a column),
  the keyword-argument collision of `agg(**{avg_x: ...}, **{avg_y: ...})`,
  the plotly figure construction (`px.scatter` wide form plus the
  `add_scatter` overlay loop and the single `yaxis2` layout entry),
  the two-decimal display formatting, and the `to_csv(index=False)` export
  are each embedded as executable functions;
* the `st.cache_data(ttl=3600)` memoization of `load_data` is a library
  decorator, so it is modelled from the spec's TTL contract.
-/

/-- A raw dataset row: the `IDCNTRY` country code and the remaining columns
as an association list from column name to (exact rational) value, as loaded
by `pd.read_sql_table("merged_education_data", engine)`. -/
abbrev Row : Type := Int × List (String × Rat)

/-- A raw dataframe: a list of rows. -/
abbrev Table : Type := List Row

/-- Value of column `k` in row `r` (columns of the loaded table are total;
the default is never reached for catalog columns). -/
def colVal (r : Row) (k : String) : Rat :=
  (r.2.lookup k).getD 0

/-- Lines 98-99 of `visualize.py`:
`if selected_countries: df = df[df["IDCNTRY"].isin(selected_countries)]` —
a non-empty selection keeps exactly the rows whose country is in the
selection; an empty selection leaves the dataframe unchanged. -/
def filterCountries (sel : List Int) (df : Table) : Table :=
  if sel.isEmpty then df else df.filter (fun r => decide (r.1 ∈ sel))

/-- Line 93, `df["IDCNTRY"].unique()`: the distinct country values in order
of first appearance. -/
def uniqueFirst (l : List Int) : List Int :=
  l.foldl (fun acc a => if a ∈ acc then acc else acc ++ [a]) []

/-- Insert into a sorted list of country codes (ascending). -/
def insertSorted (a : Int) : List Int → List Int
  | [] => [a]
  | b :: t => if a ≤ b then a :: b :: t else b :: insertSorted a t

/-- Insertion sort, ascending. -/
def sortList (l : List Int) : List Int :=
  l.foldr insertSorted []

/-- The group keys of `df.groupby("IDCNTRY")`: pandas takes the distinct
country values and sorts them ascending. -/
def sortedKeys (df : Table) : List Int :=
  sortList (uniqueFirst (df.map Prod.fst))

/-- Named aggregation `(column, "mean")`: the unweighted arithmetic mean of
column `k` over `rows`. -/
def colMean (rows : Table) (k : String) : Rat :=
  (rows.map (fun r => colVal r k)).sum / (rows.length : Rat)

/-- The named-aggregation specification built at lines 104-105:
`avg_<x>` from column `x`, then `avg_<y>` from column `y` for each selected
Y-axis indicator, in selection order. -/
def aggSpecList (x : String) (y_axes : List String) : List (String × String) :=
  ("avg_" ++ x, x) :: y_axes.map (fun y => ("avg_" ++ y, y))

/-- Lines 103-106: `df.groupby("IDCNTRY").agg(...).reset_index()` — one
output row per distinct country (keys ascending), carrying the country value
and the mean of every aggregated column; `reset_index` turns the group key
into a plain column, the row's position being the sequential index. -/
def aggregate (df : Table) (x : String) (y_axes : List String) :
    List (Int × List (String × Rat)) :=
  (sortedKeys df).map (fun c =>
    let g := df.filter (fun r => decide (r.1 = c))
    (c, (aggSpecList x y_axes).map (fun s => (s.1, colMean g s.2))))

/-- An aggregated table (`agg_df`). -/
abbrev AggTable : Type := List (Int × List (String × Rat))

/-- The aggregation call of lines 103-106 as Python executes it: the two
unpacked keyword dictionaries `{avg_x: ...}` and `{avg_y: ...}` are merged,
and Python raises `TypeError: got multiple values for keyword argument` when
the `avg_<x>` name also occurs among the `avg_<y>` names; otherwise the call
returns the aggregated table. -/
def aggCall (df : Table) (x : String) (y_axes : List String) :
    Except String AggTable :=
  if ("avg_" ++ x) ∈ y_axes.map (fun y => "avg_" ++ y) then
    Except.error ("got multiple values for keyword argument avg_" ++ x)
  else
    Except.ok (aggregate df x y_axes)

/-- The data-preprocessing part of `main` (lines 96-106): apply the country
filter, then group by country and aggregate. -/
def aggPipeline (df : Table) (sel : List Int) (x : String)
    (y_axes : List String) : Except String AggTable :=
  aggCall (filterCountries sel df) x y_axes

/-- The indicator catalog of lines 36-63: internal column keys mapped to
their display labels (presentation only; computation always uses the keys). -/
def INDICATOR_MAPPING : List (String × String) :=
  [("reading_score", "阅读成绩"),
   ("literary_purpose", "文学体验目的"),
   ("info_purpose", "信息获取目的"),
   ("integration_process", "理解整合能力"),
   ("inference_process", "检索推理能力"),
   ("reading_level", "阅读量级"),
   ("weekly_reading_hours", "每周阅读时长"),
   ("interest_reading_freq", "兴趣阅读频率"),
   ("reading_time_outside", "课外阅读时间"),
   ("home_books", "家庭藏书量"),
   ("children_book_count", "儿童书籍数量"),
   ("study_space_count", "家庭学习空间数"),
   ("guardian_a_education", "监护人A教育程度"),
   ("guardian_b_education", "监护人B教育程度"),
   ("child_education_expect", "孩子教育期望"),
   ("teaching_days_per_year", "每年教学天数"),
   ("teaching_hours_per_week", "每周教学时长"),
   ("computer_count", "学校计算机数量"),
   ("class_library_books", "班级图书馆藏书量"),
   ("teaching_years", "教师教龄"),
   ("provide_materials_freq", "教材提供频率"),
   ("encourage_comprehension_freq", "鼓励理解频率")]

/-- Lookup `INDICATOR_MAPPING[k]` as used for widget labels and chart titles; every
key offered by the widgets is a catalog key, so the fallback is unreachable
in the app. -/
def displayLabel (k : String) : String :=
  (INDICATOR_MAPPING.lookup k).getD k

/-- Column `k` of the aggregated dataframe (`agg_df[k]`), top to bottom. -/
def aggCol (agg : AggTable) (k : String) : List Rat :=
  agg.map (fun r => (r.2.lookup k).getD 0)

/-- One scatter trace: its name, x/y value arrays, marker symbol number, and
the number of the y-axis it is drawn against (1 = primary axis `y`,
`n` = axis `y<n>`). -/
structure Series where
  label : String
  xs : List Rat
  ys : List Rat
  symbol : Nat
  yaxisId : Nat
deriving DecidableEq

/-- The layout configuration of one extra y-axis (the `yaxis2=dict(...)`
entry of `update_layout`): title, whether it overlays the primary axis, and
the side it is anchored to. -/
structure AxisCfg where
  title : String
  overlaying : Bool
  side : String
deriving DecidableEq

/-- The chart: the traces created by `px.scatter` (one per selected Y
column, wide form), the traces added by the `fig.add_scatter` loop, the
extra y-axes configured in the layout (axis number paired with its
configuration), and the axis titles set at lines 150-151. -/
structure Figure where
  primary : List Series
  overlays : List Series
  extraAxes : List (Nat × AxisCfg)
  xTitle : String
  yTitle : String
deriving DecidableEq

/-- Lines 112-152 of `visualize.py`: `px.scatter` over the aggregated table
with `x = avg_<x>` and `y = [avg_<y> ...]` (one trace per selected Y
column), then, when more than one Y is selected, one
`fig.add_scatter(..., marker=dict(symbol=i+2), yaxis=f"y{i+2}")` per
additional indicator and a single `yaxis2` layout entry (overlaying the
primary axis, anchored right); finally the axis titles, the primary one
being `INDICATOR_MAPPING[y_axes[0]]` — indexing that fails when the Y
selection is empty, so no figure is produced then. -/
def buildFigure (agg : AggTable) (x : String) (y_axes : List String) :
    Option Figure :=
  match y_axes with
  | [] => none
  | y0 :: rest =>
    some
      { primary := (y0 :: rest).map (fun y =>
          { label := "avg_" ++ y
            xs := aggCol agg ("avg_" ++ x)
            ys := aggCol agg ("avg_" ++ y)
            symbol := 0
            yaxisId := 1 })
        overlays := rest.enum.map (fun iy =>
          { label := displayLabel iy.2
            xs := aggCol agg ("avg_" ++ x)
            ys := aggCol agg ("avg_" ++ iy.2)
            symbol := iy.1 + 2
            yaxisId := iy.1 + 2 })
        extraAxes :=
          match rest with
          | [] => []
          | y1 :: _ => [(2, { title := displayLabel y1
                              overlaying := true
                              side := "right" })]
        xTitle := "平均 " ++ displayLabel x
        yTitle := displayLabel y0 }

/-- Rounding to two decimal places, as a model of the `"{:.2f}"` format
string applied to the on-screen table (lines 158-161). -/
def round2 (q : Rat) : Rat :=
  ((q * 100 + 1 / 2).floor : Rat) / 100

/-- Lines 156-162: the on-screen table view — every numeric column of the
aggregated table (the `IDCNTRY` codes are numeric too) formatted to two
decimal places, for display only. -/
def displayTable (agg : AggTable) : List (List Rat) :=
  agg.map (fun r => round2 (r.1 : Rat) :: r.2.map (fun p => round2 p.2))

/-- Lines 165-170: `agg_df.to_csv(index=False)` — a header row holding the
aggregated table's column names (`IDCNTRY` first, then the aggregation
columns in order) and one data row per table row carrying the exact,
unrounded values.  The byte-level rendering (UTF-8, comma separators) is
the serialization of exactly this header and these rows. -/
def csvExport (agg : AggTable) (x : String) (y_axes : List String) :
    List String × List (List Rat) :=
  ("IDCNTRY" :: (aggSpecList x y_axes).map Prod.fst,
   agg.map (fun r => (r.1 : Rat) :: r.2.map Prod.snd))

/-- Everything one render pass of `main` produces from the loaded dataframe
and the three widget selections: the country filter's option list (computed
from the unfiltered dataframe at line 93, before any filtering), the
aggregation result, and the chart.  When the aggregation call raises, the
render aborts and no figure is shown (the sidebar widgets were already
rendered). -/
structure RenderOutput where
  countryOptions : List Int
  aggResult : Except String AggTable
  figure : Option Figure

/-- One top-to-bottom execution of `main` (lines 67-170) for a loaded
dataframe `df`, country selection `sel`, X-axis key `x` and Y-axis keys
`y_axes`. -/
def renderPage (df : Table) (sel : List Int) (x : String)
    (y_axes : List String) : RenderOutput :=
  let res := aggPipeline df sel x y_axes
  { countryOptions := uniqueFirst (df.map Prod.fst)
    aggResult := res
    figure :=
      match res with
      | Except.ok agg => buildFigure agg x y_axes
      | Except.error _ => none }

/-- The dataset cache: nothing yet, or the load time paired with the cached
table. -/
structure CacheState where
  entry : Option (Nat × Table)
deriving DecidableEq

/-- Modelled from the spec: the body of `load_data` (line 25) is a single
full read of `merged_education_data`, and the decorator
`st.cache_data(ttl=3600)` (line 22) — library behavior not in this
repository's code — caches its result for 3600 seconds of wall-clock time
from first load, after which the next call triggers a fresh full read.
`db` gives the table's contents at each instant; the returned flag records
whether this invocation issued a database read. -/
def load_data (db : Nat → Table) (now : Nat) (s : CacheState) :
    Table × CacheState × Bool :=
  match s.entry with
  | some (t0, v) =>
    if now - t0 < 3600 then (v, s, false)
    else (db now, ⟨some (now, db now)⟩, true)
  | none => (db now, ⟨some (now, db now)⟩, true)

/-- The spec's own description of one aggregated value (spec §4.4 and §8):
keep only rows whose country is in the filter set when that set is
non-empty (all rows otherwise), take exactly the remaining rows sharing
country `c`, and form the unweighted arithmetic mean of column `k` over
them. -/
def specGroupMean (df : Table) (sel : List Int) (c : Int) (k : String) : Rat :=
  let kept := if sel = [] then df else df.filter (fun r => decide (r.1 ∈ sel))
  let grp := kept.filter (fun r => decide (r.1 = c))
  (grp.map (fun r => colVal r k)).sum / (grp.length : Rat)

/-- A small concrete dataset used to instantiate the universally quantified
theorems below: two rows for country 1, one row for country 2, with columns
`a` and `b`. -/
def sampleDf : Table :=
  [(1, [("a", 10), ("b", 3)]),
   (1, [("a", 20), ("b", 5)]),
   (2, [("a", 5), ("b", 7)])]

/-- A small concrete aggregated table used to instantiate the chart
theorems below. -/
def sampleAgg : AggTable :=
  [(1, [("avg_a", 1), ("avg_b", 2), ("avg_c", 3), ("avg_d", 4)])]

/-- A concrete database whose table contents differ at every instant, used
to instantiate the cache theorem: a stale read would be observably
different from the cached value. -/
def dbW : Nat → Table :=
  fun t => [((t : Int), [])]

/-- Sanity check: the spec's worked example (rows {(A,10),(A,20),(B,5)}
grouped on country yield A→15, B→5). -/
example :
    aggregate [(1, [("a", 10)]), (1, [("a", 20)]), (2, [("a", 5)])] "a" [] =
      [(1, [("avg_a", 15)]), (2, [("avg_a", 5)])] := by
  norm_num [aggregate, sortedKeys, sortList, uniqueFirst, insertSorted,
    aggSpecList, colMean, colVal, List.lookup]
  decide

/-! ### Helper lemmas -/

theorem avg_key_inj {a b : String} (h : "avg_" ++ a = "avg_" ++ b) : a = b := by
  have h2 : ("avg_" ++ a).data = ("avg_" ++ b).data := congrArg String.data h
  simp [String.data_append] at h2
  exact String.ext h2

theorem avg_mem_iff {x : String} {ys : List String} :
    ("avg_" ++ x) ∈ ys.map (fun y => "avg_" ++ y) ↔ x ∈ ys := by
  simp only [List.mem_map]
  constructor
  · rintro ⟨y, hy, h⟩
    exact (avg_key_inj h) ▸ hy
  · intro hx
    exact ⟨x, hx, rfl⟩

theorem uniqueFirst_aux_mem (l : List Int) (acc : List Int) (a : Int) :
    a ∈ l.foldl (fun acc a => if a ∈ acc then acc else acc ++ [a]) acc ↔
      a ∈ acc ∨ a ∈ l := by
  induction l generalizing acc with
  | nil => simp
  | cons b t ih =>
    simp only [List.foldl_cons]
    rw [ih]
    by_cases hb : b ∈ acc
    · rw [if_pos hb]
      simp only [List.mem_cons]
      constructor
      · rintro (h | h)
        · exact Or.inl h
        · exact Or.inr (Or.inr h)
      · rintro (h | h | h)
        · exact Or.inl h
        · exact Or.inl (h ▸ hb)
        · exact Or.inr h
    · rw [if_neg hb]
      simp only [List.mem_append, List.mem_singleton, List.mem_cons]
      tauto

theorem uniqueFirst_aux_nodup (l : List Int) (acc : List Int)
    (hacc : acc.Nodup) :
    (l.foldl (fun acc a => if a ∈ acc then acc else acc ++ [a]) acc).Nodup := by
  induction l generalizing acc with
  | nil => simpa
  | cons b t ih =>
    simp only [List.foldl_cons]
    apply ih
    by_cases hb : b ∈ acc
    · rwa [if_pos hb]
    · rw [if_neg hb]
      simp [List.nodup_append, hacc, hb]

theorem mem_uniqueFirst {a : Int} {l : List Int} :
    a ∈ uniqueFirst l ↔ a ∈ l := by
  simpa using uniqueFirst_aux_mem l [] a

theorem nodup_uniqueFirst (l : List Int) : (uniqueFirst l).Nodup :=
  uniqueFirst_aux_nodup l [] (by simp)

theorem mem_insertSorted {a b : Int} {l : List Int} :
    a ∈ insertSorted b l ↔ a = b ∨ a ∈ l := by
  induction l with
  | nil => simp [insertSorted]
  | cons c t ih =>
    simp only [insertSorted]
    by_cases h : b ≤ c
    · simp [h, List.mem_cons]
    · simp only [h, if_false, List.mem_cons, ih]
      tauto

theorem nodup_insertSorted {b : Int} {l : List Int} (hl : l.Nodup)
    (hb : b ∉ l) : (insertSorted b l).Nodup := by
  induction l with
  | nil => simp [insertSorted]
  | cons c t ih =>
    rcases List.nodup_cons.mp hl with ⟨hc, ht⟩
    simp only [insertSorted]
    by_cases h : b ≤ c
    · rw [if_pos h]
      exact List.nodup_cons.mpr ⟨hb, hl⟩
    · rw [if_neg h]
      refine List.nodup_cons.mpr
        ⟨?_, ih ht (fun hbt => hb (List.mem_cons_of_mem _ hbt))⟩
      intro hcmem
      rcases mem_insertSorted.mp hcmem with h1 | h1
      · exact hb (by simp [h1])
      · exact hc h1

theorem mem_sortList {a : Int} {l : List Int} : a ∈ sortList l ↔ a ∈ l := by
  induction l with
  | nil => simp [sortList]
  | cons b t ih =>
    simp only [sortList, List.foldr_cons] at *
    rw [mem_insertSorted, ih]
    simp [List.mem_cons]

theorem nodup_sortList {l : List Int} (hl : l.Nodup) : (sortList l).Nodup := by
  induction l with
  | nil => simp [sortList]
  | cons b t ih =>
    rcases List.nodup_cons.mp hl with ⟨hb, ht⟩
    simp only [sortList, List.foldr_cons]
    exact nodup_insertSorted (ih ht) (fun h => hb (mem_sortList.mp h))

theorem mem_sortedKeys {c : Int} {df : Table} :
    c ∈ sortedKeys df ↔ c ∈ df.map Prod.fst := by
  simp [sortedKeys, mem_sortList, mem_uniqueFirst]

theorem nodup_sortedKeys (df : Table) : (sortedKeys df).Nodup :=
  nodup_sortList (nodup_uniqueFirst _)

theorem map_fst_aggregate (df : Table) (x : String) (ys : List String) :
    (aggregate df x ys).map Prod.fst = sortedKeys df := by
  simp [aggregate, List.map_map, Function.comp_def]

theorem mem_aggregate {df : Table} {x : String} {ys : List String} {c : Int}
    {row : List (String × Rat)} (h : (c, row) ∈ aggregate df x ys) :
    c ∈ sortedKeys df ∧
      row = (aggSpecList x ys).map
        (fun s => (s.1, colMean (df.filter (fun r => decide (r.1 = c))) s.2)) := by
  simp only [aggregate, List.mem_map] at h
  rcases h with ⟨c', hc', heq⟩
  have hc : c' = c := congrArg Prod.fst heq
  subst hc
  exact ⟨hc', (congrArg Prod.snd heq).symm⟩

theorem lookup_avg_of_mem (g : Table) {y : String} {ys : List String}
    (hy : y ∈ ys) :
    List.lookup ("avg_" ++ y)
        (ys.map (fun y' => ("avg_" ++ y', colMean g y'))) =
      some (colMean g y) := by
  induction ys with
  | nil => cases hy
  | cons a t ih =>
    by_cases h : y = a
    · subst h
      simp [List.lookup]
    · have hne : ("avg_" ++ y) ≠ ("avg_" ++ a) := fun hc => h (avg_key_inj hc)
      have hyt : y ∈ t := by
        rcases List.mem_cons.mp hy with h1 | h1
        · exact absurd h1 h
        · exact h1
      have hbeq : (("avg_" ++ y) == ("avg_" ++ a)) = false :=
        beq_eq_false_iff_ne.mpr hne
      simpa [List.lookup, hbeq] using ih hyt

theorem colMean_eq_specGroupMean (df : Table) (sel : List Int) (c : Int)
    (k : String) :
    colMean ((filterCountries sel df).filter (fun r => decide (r.1 = c))) k =
      specGroupMean df sel c k := by
  cases sel with
  | nil => rfl
  | cons s t => rfl

theorem row_lookup_x (g : Table) (x : String) (ys : List String) :
    List.lookup ("avg_" ++ x)
        ((aggSpecList x ys).map (fun s => (s.1, colMean g s.2))) =
      some (colMean g x) := by
  simp [aggSpecList, List.lookup]

theorem row_lookup_y (g : Table) (x : String) {y : String} {ys : List String}
    (hy : y ∈ ys) (hyx : y ≠ x) :
    List.lookup ("avg_" ++ y)
        ((aggSpecList x ys).map (fun s => (s.1, colMean g s.2))) =
      some (colMean g y) := by
  have hbeq : (("avg_" ++ y) == ("avg_" ++ x)) = false :=
    beq_eq_false_iff_ne.mpr (fun hc => hyx (avg_key_inj hc))
  have hlk := lookup_avg_of_mem g hy
  simp [aggSpecList, List.lookup, hbeq, List.map_map, Function.comp_def, hlk]

theorem aggCol_avg_x (d : Table) (x : String) (ys : List String) :
    aggCol (aggregate d x ys) ("avg_" ++ x) =
      (sortedKeys d).map
        (fun c => colMean (d.filter (fun r => decide (r.1 = c))) x) := by
  simp only [aggCol, aggregate, List.map_map, Function.comp_def]
  congr 1
  funext c
  rw [row_lookup_x]
  rfl

theorem aggCol_avg_y (d : Table) (x : String) {y : String} {ys : List String}
    (hy : y ∈ ys) (hyx : y ≠ x) :
    aggCol (aggregate d x ys) ("avg_" ++ y) =
      (sortedKeys d).map
        (fun c => colMean (d.filter (fun r => decide (r.1 = c))) y) := by
  simp only [aggCol, aggregate, List.map_map, Function.comp_def]
  congr 1
  funext c
  rw [row_lookup_y _ _ hy hyx]
  rfl

theorem filterCountries_nil (df : Table) : filterCountries [] df = df := by
  simp [filterCountries]

theorem filterCountries_all (df : Table) :
    filterCountries (uniqueFirst (df.map Prod.fst)) df = df := by
  cases df with
  | nil => rfl
  | cons r t =>
    have hmem : r.1 ∈ uniqueFirst ((r :: t).map Prod.fst) :=
      mem_uniqueFirst.mpr (by simp)
    have hne : uniqueFirst ((r :: t).map Prod.fst) ≠ [] := by
      intro h
      rw [h] at hmem
      cases hmem
    rw [filterCountries, if_neg (by simpa using hne)]
    apply List.filter_eq_self.mpr
    intro a ha
    exact decide_eq_true (mem_uniqueFirst.mpr (List.mem_map_of_mem _ ha))

theorem aggPipeline_ok {x : String} {ys : List String} (df : Table)
    (sel : List Int) (hx : x ∉ ys) :
    aggPipeline df sel x ys =
      Except.ok (aggregate (filterCountries sel df) x ys) := by
  simp only [aggPipeline, aggCall]
  rw [if_neg (fun hmem => hx (avg_mem_iff.mp hmem))]

/-! ### Claim theorems -/

/-- C6: when the selected X-axis key is also among the selected Y-axis keys,
the merged keyword dictionaries of the aggregation call collide on
`avg_<key>`, the call raises the duplicate-keyword error and no aggregated
table is produced; when the X key is not among the Y keys the aggregation
call succeeds on any dataset. -/
theorem c6_duplicate_kwarg_iff_x_selected_as_y (df : Table) (x : String)
    (ys : List String) :
    (x ∈ ys →
      aggCall df x ys =
        Except.error ("got multiple values for keyword argument avg_" ++ x)) ∧
    (x ∉ ys → aggCall df x ys = Except.ok (aggregate df x ys)) := by
  constructor
  · intro hx
    simp only [aggCall]
    rw [if_pos (avg_mem_iff.mpr hx)]
  · intro hx
    simp only [aggCall]
    rw [if_neg (fun hmem => hx (avg_mem_iff.mp hmem))]

/-- Witness for C6 at a concrete input: with X key `"a"`, the Y selection
`["a"]` makes the aggregation call fail, and the Y selection `["b"]` lets
it succeed. -/
theorem c6_duplicate_kwarg_iff_x_selected_as_y_witness :
    (("a" : String) ∈ ["a"]) ∧
    aggCall sampleDf "a" ["a"] =
      Except.error ("got multiple values for keyword argument avg_" ++ "a") ∧
    (("a" : String) ∉ ["b"]) ∧
    aggCall sampleDf "a" ["b"] = Except.ok (aggregate sampleDf "a" ["b"]) :=
  ⟨by decide,
   (c6_duplicate_kwarg_iff_x_selected_as_y sampleDf "a" ["a"]).1 (by decide),
   by decide,
   (c6_duplicate_kwarg_iff_x_selected_as_y sampleDf "a" ["b"]).2 (by decide)⟩

/-- C3: running the aggregation step with an empty country-filter selection
produces the same aggregated table as running it with the filter set equal
to all distinct country values present in the loaded dataset. -/
theorem c3_empty_filter_equals_all_countries (df : Table) (x : String)
    (ys : List String) :
    aggPipeline df [] x ys =
      aggPipeline df (uniqueFirst (df.map Prod.fst)) x ys := by
  unfold aggPipeline
  rw [filterCountries_nil, filterCountries_all]

/-- C10: the option list of the country-filter widget is computed from the
unfiltered loaded dataset — it is the same for every current filter
selection, and it is exactly the distinct country values present in the
loaded dataset. -/
theorem c10_options_are_unfiltered_distinct_countries (df : Table)
    (sel sel' : List Int) (x : String) (ys : List String) :
    ((renderPage df sel x ys).countryOptions =
      (renderPage df sel' x ys).countryOptions) ∧
    (∀ c : Int,
      c ∈ (renderPage df sel x ys).countryOptions ↔ c ∈ df.map Prod.fst) ∧
    (renderPage df sel x ys).countryOptions.Nodup :=
  ⟨rfl, fun _ => mem_uniqueFirst, nodup_uniqueFirst _⟩

/-- C7: with an empty Y-axis selection the aggregation call itself succeeds,
but the chart step fails when it titles the primary vertical axis with
`INDICATOR_MAPPING[y_axes[0]]` (first element of the empty Y-key list), so
no chart is produced for an empty Y selection. -/
theorem c7_empty_y_selection_fails_at_axis_title (df : Table)
    (sel : List Int) (x : String) :
    (renderPage df sel x []).figure = none ∧
    (renderPage df sel x []).aggResult =
      Except.ok (aggregate (filterCountries sel df) x []) ∧
    (∀ agg : AggTable, buildFigure agg x [] = none) := by
  refine ⟨?_, ?_, fun agg => rfl⟩
  · simp [renderPage, aggPipeline, aggCall, buildFigure]
  · simp [renderPage, aggPipeline, aggCall]

/-- C1: for every loaded dataset, country-filter selection, X-axis key and
non-empty set of Y-axis keys (the X key not doubling as a Y key, which would
abort the aggregation — see C6), the aggregation step succeeds and each
value in the aggregated table equals the unweighted arithmetic mean of the
corresponding raw column over exactly the rows sharing that country value
after filtering, the columns being the mean of the X column and of every
selected Y column per group. -/
theorem c1_aggregated_values_are_group_means (df : Table) (sel : List Int)
    (x : String) (ys : List String) (hys : ys ≠ []) (hx : x ∉ ys) :
    ∃ agg, aggPipeline df sel x ys = Except.ok agg ∧
      ∀ c row, (c, row) ∈ agg →
        row.map Prod.fst = ("avg_" ++ x) :: ys.map (fun y => "avg_" ++ y) ∧
        List.lookup ("avg_" ++ x) row = some (specGroupMean df sel c x) ∧
        ∀ y ∈ ys,
          List.lookup ("avg_" ++ y) row = some (specGroupMean df sel c y) := by
  refine ⟨aggregate (filterCountries sel df) x ys, aggPipeline_ok df sel hx,
    ?_⟩
  intro c row hmem
  obtain ⟨_, hrow⟩ := mem_aggregate hmem
  subst hrow
  refine ⟨?_, ?_, ?_⟩
  · simp [aggSpecList, List.map_map, Function.comp_def]
  · rw [row_lookup_x, colMean_eq_specGroupMean]
  · intro y hy
    have hyx : y ≠ x := fun h => hx (h ▸ hy)
    rw [row_lookup_y _ _ hy hyx, colMean_eq_specGroupMean]

/-- Witness for C1: the concrete dataset `sampleDf` with no country filter,
X key `"a"` and Y keys `["b"]`. -/
theorem c1_aggregated_values_are_group_means_witness :
    (["b"] ≠ ([] : List String)) ∧ (("a" : String) ∉ ["b"]) ∧
    (∃ agg, aggPipeline sampleDf [] "a" ["b"] = Except.ok agg ∧
      ∀ c row, (c, row) ∈ agg →
        row.map Prod.fst =
          ("avg_" ++ "a") :: ["b"].map (fun y => "avg_" ++ y) ∧
        List.lookup ("avg_" ++ "a") row =
          some (specGroupMean sampleDf [] c "a") ∧
        ∀ y ∈ ["b"],
          List.lookup ("avg_" ++ y) row =
            some (specGroupMean sampleDf [] c y)) :=
  ⟨by decide, by decide,
   c1_aggregated_values_are_group_means sampleDf [] "a" ["b"]
     (by decide) (by decide)⟩

/-- C2: for a non-empty raw dataset and a non-empty Y-axis selection (the X
key not doubling as a Y key), the aggregated table has exactly one row per
distinct country value present after filtering, and zero rows when
filtering removes all rows. -/
theorem c2_one_row_per_filtered_country (df : Table) (sel : List Int)
    (x : String) (ys : List String) (hdf : df ≠ []) (hys : ys ≠ [])
    (hx : x ∉ ys) :
    ∃ agg, aggPipeline df sel x ys = Except.ok agg ∧
      (∀ c : Int, (agg.map Prod.fst).count c =
        if c ∈ (filterCountries sel df).map Prod.fst then 1 else 0) ∧
      (filterCountries sel df = [] → agg = []) := by
  refine ⟨aggregate (filterCountries sel df) x ys, aggPipeline_ok df sel hx,
    ?_, ?_⟩
  · intro c
    rw [map_fst_aggregate]
    by_cases hc : c ∈ (filterCountries sel df).map Prod.fst
    · rw [if_pos hc]
      exact List.count_eq_one_of_mem (nodup_sortedKeys _)
        (mem_sortedKeys.mpr hc)
    · rw [if_neg hc]
      exact List.count_eq_zero.mpr (fun h => hc (mem_sortedKeys.mp h))
  · intro h
    rw [aggregate, h]
    rfl

/-- Witness for C2: the concrete dataset `sampleDf` (countries 1 and 2) with
no country filter, X key `"a"` and Y keys `["b"]`. -/
theorem c2_one_row_per_filtered_country_witness :
    (sampleDf ≠ []) ∧ (["b"] ≠ ([] : List String)) ∧
    (("a" : String) ∉ ["b"]) ∧
    (∃ agg, aggPipeline sampleDf [] "a" ["b"] = Except.ok agg ∧
      (∀ c : Int, (agg.map Prod.fst).count c =
        if c ∈ (filterCountries [] sampleDf).map Prod.fst then 1 else 0) ∧
      (filterCountries [] sampleDf = [] → agg = [])) :=
  ⟨by decide, by decide, by decide,
   c2_one_row_per_filtered_country sampleDf [] "a" ["b"]
     (by decide) (by decide) (by decide)⟩

/-- C4: the CSV export of the aggregated table has a header row whose column
names are exactly the table's columns (`IDCNTRY`, `avg_<x>`, then `avg_<y>`
for each selected Y, in that order), one data row per table row with every
row as wide as the header, carrying the exact unrounded values; the
on-screen table view shows the same values with every numeric column
rounded to two decimal places, for display only. -/
theorem c4_csv_full_precision_display_rounded (df : Table) (sel : List Int)
    (x : String) (ys : List String) :
    (csvExport (aggregate (filterCountries sel df) x ys) x ys).1 =
      "IDCNTRY" :: ("avg_" ++ x) :: ys.map (fun y => "avg_" ++ y) ∧
    (csvExport (aggregate (filterCountries sel df) x ys) x ys).2.length =
      (aggregate (filterCountries sel df) x ys).length ∧
    (csvExport (aggregate (filterCountries sel df) x ys) x ys).2 =
      (aggregate (filterCountries sel df) x ys).map
        (fun r => (r.1 : Rat) :: r.2.map Prod.snd) ∧
    (∀ v ∈ (csvExport (aggregate (filterCountries sel df) x ys) x ys).2,
      v.length =
        (csvExport (aggregate (filterCountries sel df) x ys) x ys).1.length) ∧
    displayTable (aggregate (filterCountries sel df) x ys) =
      (csvExport (aggregate (filterCountries sel df) x ys) x ys).2.map
        (fun v => v.map round2) := by
  refine ⟨?_, ?_, rfl, ?_, ?_⟩
  · simp [csvExport, aggSpecList, List.map_map, Function.comp_def]
  · simp [csvExport]
  · intro v hv
    simp only [csvExport, List.mem_map] at hv
    rcases hv with ⟨⟨c, row⟩, hr, rfl⟩
    obtain ⟨-, hrow⟩ := mem_aggregate hr
    subst hrow
    simp [csvExport, aggSpecList]
  · simp [displayTable, csvExport, List.map_map, Function.comp_def]

/-- C5: changing the Y-axis selection from `[A]` to `[A, B]` adds exactly
one overlay scatter series to the rendered chart (the `[A]` render has
none), and the primary series for indicator `A` — its label and its X and Y
value arrays — is unchanged; the X key is assumed distinct from both Y keys
since a collision aborts the render (see C6). -/
theorem c5_adding_second_y_adds_one_overlay (df : Table) (sel : List Int)
    (x A B : String) (hAB : A ≠ B) (hA : x ≠ A) (hB : x ≠ B) :
    ∃ g1 g2,
      (renderPage df sel x [A]).figure = some g1 ∧
      (renderPage df sel x [A, B]).figure = some g2 ∧
      g2.overlays.length = g1.overlays.length + 1 ∧
      g1.overlays = [] ∧
      g1.primary.map Series.label = ["avg_" ++ A] ∧
      g2.primary.map Series.label = ["avg_" ++ A, "avg_" ++ B] ∧
      g2.primary.head? = g1.primary.head? := by
  have hx1 : x ∉ [A] := by simp [hA]
  have hx2 : x ∉ [A, B] := by simp [hA, hB]
  have e1 : (renderPage df sel x [A]).figure =
      buildFigure (aggregate (filterCountries sel df) x [A]) x [A] := by
    simp only [renderPage, aggPipeline_ok df sel hx1]
  have e2 : (renderPage df sel x [A, B]).figure =
      buildFigure (aggregate (filterCountries sel df) x [A, B]) x [A, B] := by
    simp only [renderPage, aggPipeline_ok df sel hx2]
  have ex : aggCol (aggregate (filterCountries sel df) x [A, B])
      ("avg_" ++ x) =
      aggCol (aggregate (filterCountries sel df) x [A]) ("avg_" ++ x) :=
    (aggCol_avg_x _ x [A, B]).trans (aggCol_avg_x _ x [A]).symm
  have eA : aggCol (aggregate (filterCountries sel df) x [A, B])
      ("avg_" ++ A) =
      aggCol (aggregate (filterCountries sel df) x [A]) ("avg_" ++ A) :=
    (aggCol_avg_y _ x (by simp) (Ne.symm hA)).trans
      (aggCol_avg_y _ x (by simp) (Ne.symm hA)).symm
  refine ⟨_, _, e1.trans rfl, e2.trans rfl, rfl, rfl, rfl, rfl, ?_⟩
  simp only [buildFigure, List.map_cons, List.map_nil, List.head?]
  rw [ex, eA]

/-- Witness for C5: the concrete dataset `sampleDf` with no country filter,
X key `"a"`, and the Y selection changing from `["b"]` to `["b", "c"]`. -/
theorem c5_adding_second_y_adds_one_overlay_witness :
    (("b" : String) ≠ "c") ∧ (("a" : String) ≠ "b") ∧
    (("a" : String) ≠ "c") ∧
    (∃ g1 g2,
      (renderPage sampleDf [] "a" ["b"]).figure = some g1 ∧
      (renderPage sampleDf [] "a" ["b", "c"]).figure = some g2 ∧
      g2.overlays.length = g1.overlays.length + 1 ∧
      g1.overlays = [] ∧
      g1.primary.map Series.label = ["avg_" ++ "b"] ∧
      g2.primary.map Series.label = ["avg_" ++ "b", "avg_" ++ "c"] ∧
      g2.primary.head? = g1.primary.head?) :=
  ⟨by decide, by decide, by decide,
   c5_adding_second_y_adds_one_overlay sampleDf [] "a" "b" "c"
     (by decide) (by decide) (by decide)⟩

theorem enum_map_add_two (l : List String) :
    l.enum.map (fun p => p.1 + 2) =
      (List.range l.length).map (fun i => i + 2) := by
  rw [show (fun p : Nat × String => p.1 + 2) =
        ((fun i => i + 2) ∘ Prod.fst) from rfl]
  rw [← List.map_map, List.enum_map_fst]

/-- C8 counterexample: with three selected Y indicators the chart has two
overlay series, referencing y-axes `y2` and `y3` — the series after the
second does NOT share the configured secondary axis `y2` (its trace is
assigned the never-configured axis `y3`), contradicting the claim that
series after the second share that same secondary axis. -/
theorem c8_third_series_not_on_secondary_axis :
    ((buildFigure sampleAgg "a" ["b", "c", "d"]).map
        (fun g => g.overlays.map Series.yaxisId) = some [2, 3]) ∧
    ((buildFigure sampleAgg "a" ["b", "c", "d"]).map
        (fun g => g.extraAxes.map Prod.fst) = some [2]) ∧
    ¬ ((buildFigure sampleAgg "a" ["b", "c", "d"]).map
        (fun g => decide (∀ s ∈ g.overlays, s.yaxisId = 2)) = some true) :=
  ⟨rfl, rfl, by decide⟩

/-- C8 (amended): for k ≥ 2 selected Y indicators the chart gets exactly
k−1 overlay scatter series, with pairwise distinct marker symbols
(symbol i+2 for the i-th additional series), and exactly one secondary
vertical axis is configured (`yaxis2`, overlaying the primary axis,
anchored to its right side) regardless of how many additional indicators
exist; each additional series i is assigned the axis reference `y(i+2)`,
so series after the second reference further axis numbers (`y3`, `y4`, …)
that are never configured, rather than sharing the configured secondary
axis. -/
theorem c8_overlays_symbols_and_single_secondary_axis (agg : AggTable)
    (x : String) (y_axes : List String) (h : 2 ≤ y_axes.length) :
    ∃ g, buildFigure agg x y_axes = some g ∧
      g.overlays.length = y_axes.length - 1 ∧
      g.overlays.map Series.symbol =
        (List.range (y_axes.length - 1)).map (fun i => i + 2) ∧
      (g.overlays.map Series.symbol).Nodup ∧
      g.overlays.map Series.yaxisId =
        (List.range (y_axes.length - 1)).map (fun i => i + 2) ∧
      (∃ cfg, g.extraAxes = [(2, cfg)] ∧
        cfg.overlaying = true ∧ cfg.side = "right") := by
  match y_axes, h with
  | y0 :: y1 :: rest, _ =>
    have hsym : ((y1 :: rest).enum.map (fun iy =>
        ({ label := displayLabel iy.2
           xs := aggCol agg ("avg_" ++ x)
           ys := aggCol agg ("avg_" ++ iy.2)
           symbol := iy.1 + 2
           yaxisId := iy.1 + 2 } : Series))).map Series.symbol =
        (List.range (y1 :: rest).length).map (fun i => i + 2) := by
      rw [List.map_map]
      exact enum_map_add_two (y1 :: rest)
    have haxis : ((y1 :: rest).enum.map (fun iy =>
        ({ label := displayLabel iy.2
           xs := aggCol agg ("avg_" ++ x)
           ys := aggCol agg ("avg_" ++ iy.2)
           symbol := iy.1 + 2
           yaxisId := iy.1 + 2 } : Series))).map Series.yaxisId =
        (List.range (y1 :: rest).length).map (fun i => i + 2) := by
      rw [List.map_map]
      exact enum_map_add_two (y1 :: rest)
    refine ⟨_, rfl, ?_, ?_, ?_, ?_, ⟨_, rfl, rfl, rfl⟩⟩
    · simp [buildFigure, List.enum_length]
    · rw [show (y0 :: y1 :: rest).length - 1 = (y1 :: rest).length from rfl]
      exact hsym
    · rw [hsym]
      exact List.Nodup.map (fun a b hab => Nat.add_right_cancel hab)
        (List.nodup_range _)
    · rw [show (y0 :: y1 :: rest).length - 1 = (y1 :: rest).length from rfl]
      exact haxis

/-- Witness for the amended C8: the concrete aggregated table `sampleAgg`
with X key `"a"` and Y selection `["b", "c", "d"]` (three indicators). -/
theorem c8_overlays_symbols_and_single_secondary_axis_witness :
    (2 ≤ (["b", "c", "d"] : List String).length) ∧
    (∃ g, buildFigure sampleAgg "a" ["b", "c", "d"] = some g ∧
      g.overlays.length = (["b", "c", "d"] : List String).length - 1 ∧
      g.overlays.map Series.symbol =
        (List.range ((["b", "c", "d"] : List String).length - 1)).map
          (fun i => i + 2) ∧
      (g.overlays.map Series.symbol).Nodup ∧
      g.overlays.map Series.yaxisId =
        (List.range ((["b", "c", "d"] : List String).length - 1)).map
          (fun i => i + 2) ∧
      (∃ cfg, g.extraAxes = [(2, cfg)] ∧
        cfg.overlaying = true ∧ cfg.side = "right")) :=
  ⟨by decide,
   c8_overlays_symbols_and_single_secondary_axis sampleAgg "a" ["b", "c", "d"]
     (by decide)⟩

/-- C9: after a first load at time `t0`, any loader invocation at a time
within 3600 seconds of `t0` returns the table cached at `t0` — value
identical to the first load — without issuing a database read (flag
`false`, cache unchanged), and an invocation once the 3600-second window
has expired issues exactly one new full-table read (flag `true`), caching
the freshly read table. -/
theorem c9_cache_window_semantics (db : Nat → Table) (t0 t : Nat) :
    (load_data db t0 ⟨none⟩).1 = db t0 ∧
    (load_data db t0 ⟨none⟩).2.2 = true ∧
    (t - t0 < 3600 →
      load_data db t (load_data db t0 ⟨none⟩).2.1 =
        (db t0, ⟨some (t0, db t0)⟩, false)) ∧
    (3600 ≤ t - t0 →
      load_data db t (load_data db t0 ⟨none⟩).2.1 =
        (db t, ⟨some (t, db t)⟩, true)) := by
  refine ⟨rfl, rfl, ?_, ?_⟩
  · intro h
    simp only [load_data]
    rw [if_pos h]
  · intro h
    simp only [load_data]
    rw [if_neg (Nat.not_lt.mpr h)]

/-- Witness for C9: over the concrete database `dbW` (whose contents differ
at every instant), a first load at time 0, a cache hit at time 10, and a
fresh read at time 4000. -/
theorem c9_cache_window_semantics_witness :
    (10 - 0 < 3600) ∧ (3600 ≤ 4000 - 0) ∧
    load_data dbW 10 (load_data dbW 0 ⟨none⟩).2.1 =
      (dbW 0, ⟨some (0, dbW 0)⟩, false) ∧
    load_data dbW 4000 (load_data dbW 0 ⟨none⟩).2.1 =
      (dbW 4000, ⟨some (4000, dbW 4000)⟩, true) ∧
    dbW 0 ≠ dbW 4000 :=
  ⟨by decide, by decide,
   (c9_cache_window_semantics dbW 0 10).2.2.1 (by decide),
   (c9_cache_window_semantics dbW 0 4000).2.2.2 (by decide),
   by decide⟩
